import Mathlib

set_option maxHeartbeats 1000000

/-!
Verification of the Vetalyze subscription lifecycle engine.

This file is a shallow embedding of the subscription state machine of the
Vetalyze backend: the SubscriptionHistory data model and its save logic
(accounts/models.py), the manual lifecycle transitions suspend, reactivate,
refund and create_subscription (accounts/views.py and
accounts/serializers.py), and the daily reconciliation job
(accounts/management/commands/update_subscription_statuses.py).

Modelling conventions:
- Dates are integers (days since an arbitrary epoch); date.today() becomes an
  explicit parameter.  Durations are integers, matching the IntegerField
  duration_days of SubscriptionType.
- The persistent table becomes a Store: a list of records in insertion (= pk)
  order together with the next primary key and the next group token (the
  uuid4 default of subscription_group).
- The free-text comments column is abstracted to the one piece of it the code
  ever inspects: the first "[Days Remaining: n]" marker line, represented by
  FrozenMark (no marker line / well-formed marker carrying n / marker whose
  payload fails integer parsing).  User-supplied comments are taken to be
  marker-free single-line text.
- Opaque pass-through columns (payment method, actor, reference number,
  extra accounts) are not represented; the decimal amount_paid is an integer.
- Each HTTP operation becomes a function Store -> Store x Option SubError;
  a some error is an error response to the caller, none is success.  All
  checks appear in the order the code performs them.
-/

/-- Status of a SubscriptionHistory row (accounts/models.py,
SubscriptionHistory.Status). -/
inductive SubStatus
  | UPCOMING
  | ACTIVE
  | ENDED
  | SUSPENDED
  | REFUNDED
deriving DecidableEq, Repr

/-- Derived clinic status (accounts/models.py, ClinicOwnerProfile.Status). -/
inductive ClinicStatus
  | INACTIVE
  | ACTIVE
  | ENDED
  | SUSPENDED
deriving DecidableEq, Repr

/-- Abstraction of the comments text: the first "[Days Remaining: n]" marker
line, if any.  okDays n is a well-formed marker; malformed is a marker line
whose payload fails int() parsing (raising ValueError in the source); absent
means no line starts with the marker. -/
inductive FrozenMark
  | absent
  | okDays (d : Nat)
  | malformed
deriving DecidableEq, Repr

/-- One SubscriptionHistory row.  id is the primary key, group the
subscription_group correlation token, clinic the owning tenant. -/
structure Record where
  id : Nat
  group : Nat
  clinic : Nat
  duration : Int
  amountPaid : Int
  startDate : Int
  endDate : Int
  activationDate : Int
  status : SubStatus
  frozen : FrozenMark
deriving DecidableEq, Repr

/-- The subscription table: rows in primary-key order, plus the next primary
key and the next fresh subscription_group token. -/
structure Store where
  recs : List Record
  nextId : Nat
  nextGroup : Nat
deriving DecidableEq, Repr

/-- The empty table. -/
def Store.empty : Store := ⟨[], 0, 0⟩

/-- Field values passed to SubscriptionHistory.objects.create.  group? = none
means the uuid4 default generates a fresh group; endDate? = none means the
column was not supplied; status UPCOMING is the field default, so a caller
that does not pass status is modelled by status = UPCOMING. -/
structure NewRec where
  group? : Option Nat
  clinic : Nat
  duration : Int
  amountPaid : Int
  startDate : Int
  endDate? : Option Int
  status : SubStatus
  frozen : FrozenMark
deriving DecidableEq, Repr

/-- SubscriptionHistory.save on a fresh row (accounts/models.py lines
241-258): end_date defaults to start_date + duration_days, and a row arriving
with the default UPCOMING status is reclassified by start_date (UPCOMING if
start_date > today, else ACTIVE); an explicitly supplied non-UPCOMING status
is stored unchanged. -/
def Store.insert (s : Store) (today : Int) (n : NewRec) : Store :=
  let endD := n.endDate?.getD (n.startDate + n.duration)
  let st :=
    if n.status = SubStatus.UPCOMING then
      (if n.startDate > today then SubStatus.UPCOMING else SubStatus.ACTIVE)
    else n.status
  let g := n.group?.getD s.nextGroup
  { recs := s.recs ++
      [⟨s.nextId, g, n.clinic, n.duration, n.amountPaid, n.startDate, endD,
        today, st, n.frozen⟩],
    nextId := s.nextId + 1,
    nextGroup := if n.group? = none then s.nextGroup + 1 else s.nextGroup }

/-- days_left property (accounts/models.py lines 232-239): max(0, end - today)
for an ACTIVE row, 0 otherwise. -/
def daysLeft (today : Int) (r : Record) : Nat :=
  if r.status = SubStatus.ACTIVE then (r.endDate - today).toNat else 0

/-- Strict ordering on the sort key (activation_date, pk) used by
order_by on -activation_date, -pk. -/
def keyLt (a b : Record) : Prop :=
  a.activationDate < b.activationDate ∨
    (a.activationDate = b.activationDate ∧ a.id < b.id)

instance (a b : Record) : Decidable (keyLt a b) := by
  unfold keyLt; infer_instance

/-- Fold step keeping the record that is latest by (activation_date, pk). -/
def pickLater (acc : Option Record) (r : Record) : Option Record :=
  match acc with
  | none => some r
  | some a => if keyLt a r then some r else some a

/-- subscription_history.order_by(-activation_date, -pk).first() for a
clinic. -/
def latestRecord (s : Store) (c : Nat) : Option Record :=
  (s.recs.filter (fun r => decide (r.clinic = c))).foldl pickLater none

/-- ClinicOwnerProfile.status (accounts/models.py lines 88-105): INACTIVE with
no records, otherwise the latest record mapped ACTIVE to ACTIVE, SUSPENDED to
SUSPENDED, everything else (ENDED, REFUNDED, UPCOMING) to ENDED. -/
def deriveClinicStatus (s : Store) (c : Nat) : ClinicStatus :=
  match latestRecord s c with
  | none => ClinicStatus.INACTIVE
  | some r =>
    match r.status with
    | SubStatus.ACTIVE => ClinicStatus.ACTIVE
    | SubStatus.SUSPENDED => ClinicStatus.SUSPENDED
    | _ => ClinicStatus.ENDED

/-- Errors surfaced to the caller by the transition endpoints. -/
inductive SubError
  | NotFound
  | CommentRequired
  | SuspendedClinic
  | StartDateInPast
  | Overlapping
  | NegativeAmount
  | InvalidStatus
  | UpcomingBlocks
  | ServerError
deriving DecidableEq, Repr

/-- The views reject a request whose comment is empty after stripping
(if not request.data.get("comment", "").strip()); a string strips to empty
exactly when every character is whitespace. -/
def isBlankComment (c : String) : Bool := c.data.all Char.isWhitespace

/-- get_object_or_404(SubscriptionHistory, pk=sub_pk, clinic_id=clinic_pk). -/
def Store.findRec (s : Store) (rid c : Nat) : Option Record :=
  s.recs.find? (fun r => decide (r.id = rid ∧ r.clinic = c))

/-- Overlap test of CreateSubscriptionHistorySerializer.validate: a record of
the clinic with end_date >= start, start_date <= end and status outside
ENDED/REFUNDED. -/
def overlapExists (s : Store) (c : Nat) (startD endD : Int) : Bool :=
  s.recs.any (fun r =>
    decide (r.clinic = c ∧ startD ≤ r.endDate ∧ r.startDate ≤ endD ∧
      r.status ≠ SubStatus.ENDED ∧ r.status ≠ SubStatus.REFUNDED))

/-- Input of the create-subscription endpoint (plan duration, amount,
start date). -/
structure CreateReq where
  duration : Int
  amountPaid : Int
  startDate : Int
deriving DecidableEq, Repr

/-- CreateSubscriptionHistorySerializer.validate + create
(accounts/serializers.py lines 401-484): reject a suspended clinic, a past
start_date, an overlapping window, then a negative amount; on success flip
every ACTIVE row of the clinic to ENDED when start_date <= today (a queryset
update, bypassing save) and insert the new row with a fresh group, no explicit
end_date and the default UPCOMING status. -/
def createSubscription (today : Int) (c : Nat) (req : CreateReq) (s : Store) :
    Store × Option SubError :=
  if deriveClinicStatus s c = ClinicStatus.SUSPENDED then
    (s, some SubError.SuspendedClinic)
  else
    let endD := req.startDate + req.duration
    if req.startDate < today then (s, some SubError.StartDateInPast)
    else if overlapExists s c req.startDate endD then
      (s, some SubError.Overlapping)
    else if req.amountPaid < 0 then (s, some SubError.NegativeAmount)
    else
      let s1 :=
        if req.startDate ≤ today then
          { s with recs := s.recs.map (fun r =>
              if r.clinic = c ∧ r.status = SubStatus.ACTIVE then
                { r with status := SubStatus.ENDED }
              else r) }
        else s
      (s1.insert today
        ⟨none, c, req.duration, req.amountPaid, req.startDate, none,
          SubStatus.UPCOMING, FrozenMark.absent⟩, none)

/-- ManageSubscriptionStatusView.post with action suspend
(accounts/views.py lines 257-344): 404 lookup, required comment, ACTIVE-only
status check, freeze days_left, reject if the clinic has any UPCOMING row,
then insert a SUSPENDED row in the same group with start_date = today, the
original end_date and the frozen day count in its comments. -/
def suspendOp (today : Int) (rid c : Nat) (comment : String) (s : Store) :
    Store × Option SubError :=
  match s.findRec rid c with
  | none => (s, some SubError.NotFound)
  | some r =>
    if isBlankComment comment then (s, some SubError.CommentRequired)
    else if r.status ≠ SubStatus.ACTIVE then (s, some SubError.InvalidStatus)
    else
      let d := daysLeft today r
      if s.recs.any (fun u =>
          decide (u.clinic = c ∧ u.status = SubStatus.UPCOMING)) then
        (s, some SubError.UpcomingBlocks)
      else
        (s.insert today
          ⟨some r.group, c, r.duration, r.amountPaid, today, some r.endDate,
            SubStatus.SUSPENDED, FrozenMark.okDays d⟩, none)

/-- End date computed by ManageSubscriptionStatusView._handle_reactivate
(accounts/views.py lines 352-365): days_remaining starts at 0 and is
overwritten by the first well-formed marker line, after which the new end date
is today + days_remaining; only a marker whose payload raises during int()
parsing takes the fallback branch that reuses the end_date of the suspend row. -/
def reactivationEndDate (today : Int) (r : Record) : Int :=
  match r.frozen with
  | FrozenMark.absent => today + (0 : Int)
  | FrozenMark.okDays d => today + (d : Int)
  | FrozenMark.malformed => r.endDate

/-- ManageSubscriptionStatusView.post with action reactivate
(accounts/views.py lines 346-397): 404 lookup, required comment,
SUSPENDED-only status check, then insert an ACTIVE row in the same group with
start_date = today and the parsed end date. -/
def reactivateOp (today : Int) (rid c : Nat) (comment : String) (s : Store) :
    Store × Option SubError :=
  match s.findRec rid c with
  | none => (s, some SubError.NotFound)
  | some r =>
    if isBlankComment comment then (s, some SubError.CommentRequired)
    else if r.status ≠ SubStatus.SUSPENDED then (s, some SubError.InvalidStatus)
    else
      (s.insert today
        ⟨some r.group, c, r.duration, r.amountPaid, today,
          some (reactivationEndDate today r), SubStatus.ACTIVE,
          FrozenMark.absent⟩, none)

/-- RefundSubscriptionView.post (accounts/views.py lines 400-482): 404 lookup,
required comment, refundable-status check (ACTIVE, SUSPENDED or UPCOMING),
then insert a REFUNDED row in the same group preserving the original
start/end dates and amount.  After the insert, the code builds the unused
has_active_or_upcoming query with the name Q (lines 461-466), which views.py
never imports: the resulting NameError is caught by the blanket except of
lines 477-482, which returns a 500 Failed-to-refund response.  The exception
is swallowed inside the transaction.atomic block, so the block exits normally
and the transaction commits: the REFUNDED row persists while the caller is
told the operation failed.  ServerError models that 500 response. -/
def refundOp (today : Int) (rid c : Nat) (comment : String) (s : Store) :
    Store × Option SubError :=
  match s.findRec rid c with
  | none => (s, some SubError.NotFound)
  | some r =>
    if isBlankComment comment then (s, some SubError.CommentRequired)
    else if ¬(r.status = SubStatus.ACTIVE ∨ r.status = SubStatus.SUSPENDED ∨
        r.status = SubStatus.UPCOMING) then
      (s, some SubError.InvalidStatus)
    else
      (s.insert today
        ⟨some r.group, c, r.duration, r.amountPaid, r.startDate,
          some r.endDate, SubStatus.REFUNDED, FrozenMark.absent⟩,
        some SubError.ServerError)

/-- A record due for activation by the reconciliation job: UPCOMING with
start_date <= today. -/
def isDueUpcoming (today : Int) (r : Record) : Bool :=
  decide (r.status = SubStatus.UPCOMING ∧ r.startDate ≤ today)

/-- A record due for expiry by the reconciliation job: ACTIVE with
end_date < today. -/
def isExpirable (today : Int) (r : Record) : Bool :=
  decide (r.status = SubStatus.ACTIVE ∧ r.endDate < today)

/-- Does the subscription_group already contain an ENDED row? -/
def groupHasEnded (l : List Record) (g : Nat) : Bool :=
  l.any (fun e => decide (e.group = g ∧ e.status = SubStatus.ENDED))

/-- The ENDED copy that the reconciliation job inserts to close a row. -/
def endedCopy (a : Record) : NewRec :=
  ⟨some a.group, a.clinic, a.duration, a.amountPaid, a.startDate,
    some a.endDate, SubStatus.ENDED, FrozenMark.absent⟩

/-- In-place UPDATE of the status of one row by primary key (the UPCOMING to
ACTIVE flip of the reconciliation job). -/
def Store.setStatus (s : Store) (rid : Nat) (st : SubStatus) : Store :=
  { s with recs := s.recs.map (fun r =>
      if r.id = rid then { r with status := st } else r) }

/-- Closing one currently-ACTIVE row during activation of an upcoming plan:
skip if the group already has an ENDED row, else insert an ENDED copy. -/
def endActiveFor (today : Int) (s : Store) (a : Record) : Store :=
  if groupHasEnded s.recs a.group then s else s.insert today (endedCopy a)

/-- Processing of one due UPCOMING row (Command._activate_upcoming_subscriptions
loop body): close every ACTIVE row of the same clinic, then flip the UPCOMING
row itself to ACTIVE in place. -/
def activateOne (today : Int) (s : Store) (u : Record) : Store :=
  let actives := s.recs.filter (fun a =>
    decide (a.clinic = u.clinic ∧ a.status = SubStatus.ACTIVE))
  (actives.foldl (endActiveFor today) s).setStatus u.id SubStatus.ACTIVE

/-- Command._activate_upcoming_subscriptions (lines 51-111): snapshot the due
UPCOMING rows, process each, return the store and the activated count. -/
def activateUpcoming (today : Int) (s : Store) : Store × Nat :=
  let due := s.recs.filter (isDueUpcoming today)
  (due.foldl (activateOne today) s, due.length)

/-- Loop body of Command._expire_active_subscriptions: skip a row whose group
already has an ENDED record, else insert an ENDED copy and count it. -/
def expireStep (today : Int) (p : Store × Nat) (r : Record) : Store × Nat :=
  if groupHasEnded p.1.recs r.group then p
  else (p.1.insert today (endedCopy r), p.2 + 1)

/-- Command._expire_active_subscriptions (lines 113-167): snapshot the ACTIVE
rows with end_date < today, process each, return the store and the expired
count. -/
def expireActive (today : Int) (s : Store) : Store × Nat :=
  (s.recs.filter (isExpirable today)).foldl (expireStep today) (s, 0)

/-- Command.handle (lines 16-49): activate due UPCOMING rows, then expire
overdue ACTIVE rows; returns the store with both counts. -/
def runDaily (today : Int) (s : Store) : Store × Nat × Nat :=
  let a := activateUpcoming today s
  let e := expireActive today a.1
  (e.1, a.2, e.2)

/-- Number of rows of the clinic whose status is ACTIVE. -/
def countActive (c : Nat) (s : Store) : Nat :=
  (s.recs.filter (fun r =>
    decide (r.clinic = c ∧ r.status = SubStatus.ACTIVE))).length

/-- Number of ENDED rows in a subscription group. -/
def countEndedGroup (g : Nat) (l : List Record) : Nat :=
  (l.filter (fun e => decide (e.group = g ∧ e.status = SubStatus.ENDED))).length

/-- Well-formed store: every stored primary key is below the next one. -/
def StoreWF (s : Store) : Prop :=
  ∀ r ∈ s.recs, r.id < s.nextId

/-- The record inserted by Store.insert, made explicit for proofs. -/
def insertedRec (s : Store) (today : Int) (n : NewRec) : Record :=
  ⟨s.nextId, n.group?.getD s.nextGroup, n.clinic, n.duration, n.amountPaid,
    n.startDate, n.endDate?.getD (n.startDate + n.duration), today,
    if n.status = SubStatus.UPCOMING then
      (if n.startDate > today then SubStatus.UPCOMING else SubStatus.ACTIVE)
    else n.status, n.frozen⟩

theorem insert_recs (s : Store) (today : Int) (n : NewRec) :
    (s.insert today n).recs = s.recs ++ [insertedRec s today n] := rfl

/-- C8: a record created without an explicit end_date (and, as on that code
path, without an explicit status, i.e. the UPCOMING default) is stored with
end_date = start_date + duration_days, status ACTIVE when start_date is today
or earlier, and UPCOMING when start_date is in the future. -/
theorem c8_save_default_end_and_status (today : Int) (s : Store) (n : NewRec)
    (hend : n.endDate? = none) (hst : n.status = SubStatus.UPCOMING) :
    ∃ rec : Record, (s.insert today n).recs = s.recs ++ [rec] ∧
      rec.endDate = n.startDate + n.duration ∧
      rec.startDate = n.startDate ∧
      (n.startDate ≤ today → rec.status = SubStatus.ACTIVE) ∧
      (today < n.startDate → rec.status = SubStatus.UPCOMING) := by
  refine ⟨insertedRec s today n, insert_recs s today n, ?_, rfl, ?_, ?_⟩
  · simp [insertedRec, hend]
  · intro h
    simp [insertedRec, hst, if_neg (by omega : ¬ n.startDate > today)]
  · intro h
    simp [insertedRec, hst, if_pos (by omega : n.startDate > today)]

theorem c8_save_default_end_and_status_witness :
    ∃ rec : Record,
      (Store.empty.insert 0
        ⟨none, 0, 30, 100, 0, none, SubStatus.UPCOMING,
          FrozenMark.absent⟩).recs = Store.empty.recs ++ [rec] ∧
      rec.endDate = (0 : Int) + 30 ∧
      rec.startDate = 0 ∧
      ((0 : Int) ≤ 0 → rec.status = SubStatus.ACTIVE) ∧
      ((0 : Int) < 0 → rec.status = SubStatus.UPCOMING) :=
  c8_save_default_end_and_status 0 Store.empty
    ⟨none, 0, 30, 100, 0, none, SubStatus.UPCOMING, FrozenMark.absent⟩ rfl rfl

/-- C10: a record created with an explicitly supplied non-UPCOMING status
(SUSPENDED, ENDED, REFUNDED or ACTIVE) keeps exactly that status, however
start_date compares to today. -/
theorem c10_explicit_status_preserved (today : Int) (s : Store) (n : NewRec)
    (h : n.status ≠ SubStatus.UPCOMING) :
    ∃ rec : Record, (s.insert today n).recs = s.recs ++ [rec] ∧
      rec.status = n.status := by
  refine ⟨insertedRec s today n, insert_recs s today n, ?_⟩
  simp [insertedRec, if_neg h]

theorem c10_explicit_status_preserved_witness :
    ∃ rec : Record,
      (Store.empty.insert 0
        ⟨some 0, 0, 30, 100, 0, some 30, SubStatus.SUSPENDED,
          FrozenMark.okDays 30⟩).recs = Store.empty.recs ++ [rec] ∧
      rec.status = SubStatus.SUSPENDED :=
  c10_explicit_status_preserved 0 Store.empty
    ⟨some 0, 0, 30, 100, 0, some 30, SubStatus.SUSPENDED, FrozenMark.okDays 30⟩
    (by decide)

/-- C9 (amended): reactivation of a SUSPENDED record always succeeds, and the
end_date of the new ACTIVE record is today + d when a well-formed frozen marker
with payload d is present, the original end_date of the suspend record when the
marker is present but malformed (the parse-failure fallback), and today
(days_remaining defaults to 0, which is not the original-end_date fallback)
when no marker is present. -/
theorem c9_reactivate_end_date_cases (today : Int) (rid c : Nat)
    (comment : String) (s : Store) (r : Record)
    (hfind : s.findRec rid c = some r) (hst : r.status = SubStatus.SUSPENDED)
    (hc : isBlankComment comment = false) :
    (reactivateOp today rid c comment s).2 = none ∧
    ∃ rec : Record,
      (reactivateOp today rid c comment s).1.recs = s.recs ++ [rec] ∧
      rec.status = SubStatus.ACTIVE ∧
      (∀ d, r.frozen = FrozenMark.okDays d → rec.endDate = today + (d : Int)) ∧
      (r.frozen = FrozenMark.malformed → rec.endDate = r.endDate) ∧
      (r.frozen = FrozenMark.absent → rec.endDate = today) := by
  have hst2 : ¬ r.status ≠ SubStatus.SUSPENDED := by simp [hst]
  have hcn : ¬ (isBlankComment comment = true) := by simp [hc]
  constructor
  · simp only [reactivateOp, hfind, if_neg hcn, if_neg hst2]
  · refine ⟨insertedRec s today
      ⟨some r.group, c, r.duration, r.amountPaid, today,
        some (reactivationEndDate today r), SubStatus.ACTIVE,
        FrozenMark.absent⟩, ?_, by simp [insertedRec], ?_, ?_, ?_⟩
    · simp only [reactivateOp, hfind, if_neg hcn, if_neg hst2]
      exact insert_recs _ _ _
    · intro d hd
      simp [insertedRec, reactivationEndDate, hd]
    · intro hd
      simp [insertedRec, reactivationEndDate, hd]
    · intro hd
      simp [insertedRec, reactivationEndDate, hd]

theorem c9_reactivate_end_date_cases_witness :
    (reactivateOp 7 0 0 "resume"
        ⟨[⟨0, 0, 0, 30, 100, 0, 30, 0, SubStatus.SUSPENDED,
          FrozenMark.okDays 12⟩], 1, 1⟩).2 = none ∧
    ∃ rec : Record,
      (reactivateOp 7 0 0 "resume"
        ⟨[⟨0, 0, 0, 30, 100, 0, 30, 0, SubStatus.SUSPENDED,
          FrozenMark.okDays 12⟩], 1, 1⟩).1.recs =
        [⟨0, 0, 0, 30, 100, 0, 30, 0, SubStatus.SUSPENDED,
          FrozenMark.okDays 12⟩] ++ [rec] ∧
      rec.status = SubStatus.ACTIVE ∧
      (∀ d, FrozenMark.okDays 12 = FrozenMark.okDays d →
        rec.endDate = 7 + (d : Int)) ∧
      (FrozenMark.okDays 12 = FrozenMark.malformed → rec.endDate = 30) ∧
      (FrozenMark.okDays 12 = FrozenMark.absent → rec.endDate = 7) :=
  c9_reactivate_end_date_cases 7 0 0 "resume"
    ⟨[⟨0, 0, 0, 30, 100, 0, 30, 0, SubStatus.SUSPENDED,
      FrozenMark.okDays 12⟩], 1, 1⟩
    ⟨0, 0, 0, 30, 100, 0, 30, 0, SubStatus.SUSPENDED, FrozenMark.okDays 12⟩
    (by decide) rfl (by decide)

/-- C9 counterexample: a SUSPENDED record whose comments contain no frozen-day
marker (original end_date 5, reactivated on day 0).  The claim says the
operation falls back to the original end_date 5; the code leaves
days_remaining at 0 and stores end_date = today = 0. -/
theorem c9_absent_marker_not_fallback :
    (reactivateOp 0 0 0 "go"
        ⟨[⟨0, 0, 0, 30, 100, -5, 5, -5, SubStatus.SUSPENDED,
          FrozenMark.absent⟩], 1, 1⟩).2 = none ∧
    ((reactivateOp 0 0 0 "go"
        ⟨[⟨0, 0, 0, 30, 100, -5, 5, -5, SubStatus.SUSPENDED,
          FrozenMark.absent⟩], 1, 1⟩).1.recs.map Record.endDate) = [5, 0] := by
  decide

/-- C2: evaluation of refund at the failing input: an existing ACTIVE (hence
refundable) record and a non-blank comment.  The claim requires Ok; the code
inserts the REFUNDED row and then evaluates the unimported name Q, so the
caught NameError turns into the 500 server error and the caller never
receives Ok (and a blank comment would be rejected with the comment-required
error even earlier). -/
theorem c2_refund_crash_on_refundable :
    ((⟨[⟨0, 0, 0, 30, 100, 0, 30, 0, SubStatus.ACTIVE, FrozenMark.absent⟩],
        1, 1⟩ : Store).findRec 0 0).map Record.status =
      some SubStatus.ACTIVE ∧
    isBlankComment "bad card" = false ∧
    (refundOp 5 0 0 "bad card"
      ⟨[⟨0, 0, 0, 30, 100, 0, 30, 0, SubStatus.ACTIVE, FrozenMark.absent⟩],
        1, 1⟩).2 = some SubError.ServerError := by
  decide

/-- C5 (amended): provided the derived status of the clinic is not SUSPENDED and
the requested start_date is not in the past (the two checks that run first),
any create_subscription request whose window [start_date, start_date +
duration] overlaps an existing record of the clinic with status outside
ENDED/REFUNDED is rejected with OverlappingSubscriptionError and leaves the
store unchanged. -/
theorem c5_overlap_rejected (today : Int) (c : Nat) (req : CreateReq)
    (s : Store)
    (hns : deriveClinicStatus s c ≠ ClinicStatus.SUSPENDED)
    (hstart : today ≤ req.startDate)
    (hov : overlapExists s c req.startDate (req.startDate + req.duration) =
      true) :
    createSubscription today c req s = (s, some SubError.Overlapping) := by
  have h2 : ¬ req.startDate < today := by omega
  simp only [createSubscription, if_neg hns, if_neg h2, hov, if_pos]

theorem c5_overlap_rejected_witness :
    createSubscription 0 0 ⟨30, 100, 10⟩
      ⟨[⟨0, 0, 0, 30, 100, 0, 30, 0, SubStatus.ACTIVE, FrozenMark.absent⟩],
        1, 1⟩ =
      (⟨[⟨0, 0, 0, 30, 100, 0, 30, 0, SubStatus.ACTIVE, FrozenMark.absent⟩],
        1, 1⟩, some SubError.Overlapping) :=
  c5_overlap_rejected 0 0 ⟨30, 100, 10⟩
    ⟨[⟨0, 0, 0, 30, 100, 0, 30, 0, SubStatus.ACTIVE, FrozenMark.absent⟩], 1, 1⟩
    (by decide) (by decide) (by decide)

/-- C5 counterexample: a clinic whose latest record is SUSPENDED (a
non-terminal record overlapping the requested window [0, 30]).  The claim
requires OverlappingSubscriptionError; the code checks the suspended-clinic
rule first and rejects with SuspendedClinicError instead. -/
theorem c5_overlap_suspended_clinic_error :
    overlapExists
      ⟨[⟨0, 0, 0, 30, 100, 0, 30, 0, SubStatus.SUSPENDED,
        FrozenMark.okDays 30⟩], 1, 1⟩ 0 0 30 = true ∧
    createSubscription 0 0 ⟨30, 100, 0⟩
      ⟨[⟨0, 0, 0, 30, 100, 0, 30, 0, SubStatus.SUSPENDED,
        FrozenMark.okDays 30⟩], 1, 1⟩ =
      (⟨[⟨0, 0, 0, 30, 100, 0, 30, 0, SubStatus.SUSPENDED,
        FrozenMark.okDays 30⟩], 1, 1⟩, some SubError.SuspendedClinic) := by
  decide

/-- C3: evaluation of the refund transition at the failing input: the
operation reports a failure to the caller while the newly created REFUNDED
successor record persists in the store (the NameError on the unimported Q is
caught inside the transaction.atomic block, so the insert commits), exactly
the outcome the claim rules out. -/
theorem c3_refund_error_but_row_committed :
    (refundOp 5 0 0 "bad card"
      ⟨[⟨0, 0, 0, 30, 100, 0, 30, 0, SubStatus.ACTIVE, FrozenMark.absent⟩],
        1, 1⟩).2 ≠ none ∧
    ((refundOp 5 0 0 "bad card"
      ⟨[⟨0, 0, 0, 30, 100, 0, 30, 0, SubStatus.ACTIVE, FrozenMark.absent⟩],
        1, 1⟩).1.recs.map Record.status) =
      [SubStatus.ACTIVE, SubStatus.REFUNDED] := by
  decide

/-- C1 counterexample: from the empty store, create a subscription (today = 0,
30-day plan), suspend it, then reactivate the resulting SUSPENDED record on
day 3.  Both transitions succeed, yet the clinic then has two records with
status ACTIVE: suspend and reactivate never close the original ACTIVE row, so
the claimed invariant fails on exactly the suspend-then-reactivate run the
claim singles out. -/
theorem c1_two_active_after_suspend_reactivate :
    (createSubscription 0 0 ⟨30, 100, 0⟩ Store.empty).2 = none ∧
    (suspendOp 0 0 0 "hold"
      (createSubscription 0 0 ⟨30, 100, 0⟩ Store.empty).1).2 = none ∧
    (reactivateOp 3 1 0 "back"
      (suspendOp 0 0 0 "hold"
        (createSubscription 0 0 ⟨30, 100, 0⟩ Store.empty).1).1).2 = none ∧
    countActive 0
      (reactivateOp 3 1 0 "back"
        (suspendOp 0 0 0 "hold"
          (createSubscription 0 0 ⟨30, 100, 0⟩ Store.empty).1).1).1 = 2 := by
  decide

/-- All ACTIVE rows of the clinic disappear from the active filter after the
queryset update that flips them to ENDED. -/
theorem countActive_flip (c : Nat) (l : List Record) :
    (l.map (fun r =>
      if r.clinic = c ∧ r.status = SubStatus.ACTIVE then
        { r with status := SubStatus.ENDED } else r)).filter
      (fun r => decide (r.clinic = c ∧ r.status = SubStatus.ACTIVE)) = [] := by
  induction l with
  | nil => rfl
  | cons x xs ih =>
    by_cases hx : x.clinic = c ∧ x.status = SubStatus.ACTIVE
    · simp only [List.map_cons, if_pos hx, List.filter_cons]
      rw [if_neg (by simp)]
      exact ih
    · simp only [List.map_cons, if_neg hx, List.filter_cons]
      rw [if_neg (by simp [hx])]
      exact ih

/-- C1 (amended): a successful create_subscription with start_date on or
before today leaves the clinic with exactly one ACTIVE record (it flips every
previously ACTIVE row to ENDED and inserts the single new ACTIVE row).  The
invariant does not extend to suspend/reactivate, which leave the superseded
ACTIVE row in place (see the counterexample). -/
theorem c1_create_unique_active (today : Int) (c : Nat) (req : CreateReq)
    (s : Store) (hstart : req.startDate ≤ today)
    (hok : (createSubscription today c req s).2 = none) :
    countActive c (createSubscription today c req s).1 = 1 := by
  by_cases h1 : deriveClinicStatus s c = ClinicStatus.SUSPENDED
  · simp [createSubscription, h1] at hok
  by_cases h2 : req.startDate < today
  · simp [createSubscription, h1, h2] at hok
  by_cases h3 : overlapExists s c req.startDate (req.startDate + req.duration) =
      true
  · simp [createSubscription, h1, h2, h3] at hok
  by_cases h4 : req.amountPaid < 0
  · simp [createSubscription, h1, h2, h3, h4] at hok
  have hng : ¬ req.startDate > today := by omega
  simp only [createSubscription, if_neg h1, if_neg h2, if_neg h3, if_neg h4,
    if_pos hstart]
  rw [countActive, insert_recs, List.filter_append, List.length_append,
    countActive_flip]
  simp [insertedRec, hng]

theorem c1_create_unique_active_witness :
    (⟨30, 100, 0⟩ : CreateReq).startDate ≤ (0 : Int) ∧
    countActive 0 (createSubscription 0 0 ⟨30, 100, 0⟩ Store.empty).1 = 1 :=
  ⟨by decide,
    c1_create_unique_active 0 0 ⟨30, 100, 0⟩ Store.empty (by decide) (by decide)⟩

/-- The sort key comparison is asymmetric. -/
theorem keyLt_asymm {a b : Record} (h : keyLt a b) : ¬ keyLt b a := by
  unfold keyLt at *
  rcases h with h | ⟨h1, h2⟩ <;>
    (intro hc; rcases hc with hc | ⟨hc1, hc2⟩ <;> omega)

/-- The sort key comparison is irreflexive. -/
theorem keyLt_irrefl (a : Record) : ¬ keyLt a a := by
  unfold keyLt
  intro hc
  rcases hc with hc | ⟨hc1, hc2⟩ <;> omega

/-- Once the incumbent beats every remaining record, the fold keeps it. -/
theorem foldl_pickLater_stay (r : Record) (l : List Record)
    (h : ∀ x ∈ l, ¬ keyLt r x) : l.foldl pickLater (some r) = some r := by
  induction l with
  | nil => rfl
  | cons x xs ih =>
    have hx : ¬ keyLt r x := h x (List.mem_cons_self x xs)
    simp only [List.foldl_cons, pickLater, if_neg hx]
    exact ih (fun y hy => h y (List.mem_cons_of_mem x hy))

/-- The fold over pickLater returns the record that strictly dominates all
others by (activation_date, pk), from any dominated accumulator. -/
theorem foldl_pickLater_dominant (l : List Record) (r : Record) :
    r ∈ l → (∀ x ∈ l, x ≠ r → keyLt x r) →
    ∀ acc : Option Record,
      (acc = none ∨ ∃ a, acc = some a ∧ keyLt a r) →
      l.foldl pickLater acc = some r := by
  induction l with
  | nil => intro hmem; cases hmem
  | cons x xs ih =>
    intro hmem hdom acc hacc
    by_cases hxr : x = r
    · subst hxr
      have hstep : pickLater acc x = some x := by
        rcases hacc with h | ⟨a, ha, hlt⟩
        · subst h; rfl
        · subst ha; simp only [pickLater, if_pos hlt]
      rw [List.foldl_cons, hstep]
      refine foldl_pickLater_stay x xs (fun y hy => ?_)
      by_cases hyx : y = x
      · subst hyx; exact keyLt_irrefl y
      · exact keyLt_asymm (hdom y (List.mem_cons_of_mem x hy) hyx)
    · have hrxs : r ∈ xs := by
        rcases List.mem_cons.mp hmem with h | h
        · exact absurd h.symm hxr
        · exact h
      have hxlt : keyLt x r := hdom x (List.mem_cons_self x xs) hxr
      rw [List.foldl_cons]
      refine ih hrxs (fun y hy hne => hdom y (List.mem_cons_of_mem x hy) hne)
        (pickLater acc x) ?_
      rcases hacc with h | ⟨a, ha, hlt⟩
      · subst h; exact Or.inr ⟨x, rfl, hxlt⟩
      · subst ha
        by_cases hax : keyLt a x
        · exact Or.inr ⟨x, by simp only [pickLater, if_pos hax], hxlt⟩
        · exact Or.inr ⟨a, by simp only [pickLater, if_neg hax], hlt⟩

/-- C4: derive_clinic_status returns INACTIVE for a clinic with no records;
otherwise, for the record that is latest by activation_date with ties broken
by id, it returns ACTIVE when that record is ACTIVE, SUSPENDED when it is
SUSPENDED, and ENDED when it is ENDED, REFUNDED or UPCOMING. -/
theorem c4_derive_clinic_status_spec (s : Store) (c : Nat) :
    ((∀ r ∈ s.recs, r.clinic ≠ c) →
      deriveClinicStatus s c = ClinicStatus.INACTIVE) ∧
    (∀ r ∈ s.recs, r.clinic = c →
      (∀ x ∈ s.recs, x.clinic = c → x ≠ r → keyLt x r) →
      (r.status = SubStatus.ACTIVE →
        deriveClinicStatus s c = ClinicStatus.ACTIVE) ∧
      (r.status = SubStatus.SUSPENDED →
        deriveClinicStatus s c = ClinicStatus.SUSPENDED) ∧
      (r.status = SubStatus.ENDED ∨ r.status = SubStatus.REFUNDED ∨
          r.status = SubStatus.UPCOMING →
        deriveClinicStatus s c = ClinicStatus.ENDED)) := by
  constructor
  · intro h
    have hfil : s.recs.filter (fun r => decide (r.clinic = c)) = [] := by
      apply List.filter_eq_nil_iff.mpr
      intro a ha
      simp [h a ha]
    unfold deriveClinicStatus latestRecord
    rw [hfil]
    rfl
  · intro r hr hc hdom
    have hlat : latestRecord s c = some r := by
      unfold latestRecord
      refine foldl_pickLater_dominant _ r ?_ ?_ none (Or.inl rfl)
      · exact List.mem_filter.mpr ⟨hr, by simp [hc]⟩
      · intro x hx hne
        have hx2 := List.mem_filter.mp hx
        exact hdom x hx2.1 (by simpa using hx2.2) hne
    unfold deriveClinicStatus
    rw [hlat]
    refine ⟨fun h => by simp [h], fun h => by simp [h], fun h => ?_⟩
    rcases h with h | h | h <;> simp [h]

theorem c4_derive_clinic_status_spec_witness :
    deriveClinicStatus
      ⟨[⟨0, 0, 0, 30, 100, 0, 30, 0, SubStatus.ACTIVE, FrozenMark.absent⟩,
        ⟨1, 0, 0, 30, 100, 0, 30, 0, SubStatus.SUSPENDED,
          FrozenMark.okDays 30⟩], 2, 1⟩ 0 = ClinicStatus.SUSPENDED :=
  ((c4_derive_clinic_status_spec
      ⟨[⟨0, 0, 0, 30, 100, 0, 30, 0, SubStatus.ACTIVE, FrozenMark.absent⟩,
        ⟨1, 0, 0, 30, 100, 0, 30, 0, SubStatus.SUSPENDED,
          FrozenMark.okDays 30⟩], 2, 1⟩ 0).2
    ⟨1, 0, 0, 30, 100, 0, 30, 0, SubStatus.SUSPENDED, FrozenMark.okDays 30⟩
    (by decide) (by decide) (by decide)).2.1 (by decide)

/-- find? over an appended singleton that no earlier element matches. -/
theorem find_append_last (l : List Record) (x : Record) (p : Record → Bool)
    (hl : ∀ y ∈ l, p y = false) (hx : p x = true) :
    (l ++ [x]).find? p = some x := by
  induction l with
  | nil => simp [List.find?, hx]
  | cons a as ih =>
    have ha : p a = false := hl a (List.mem_cons_self a as)
    rw [List.cons_append, List.find?_cons_of_neg _ (by simp [ha])]
    exact ih (fun y hy => hl y (List.mem_cons_of_mem a hy))

/-- C6: suspending an ACTIVE record r on day t1 freezes d = days_left(r, t1),
and reactivating the resulting SUSPENDED record on any later request day t2
creates an ACTIVE record with end_date = t2 + d, whose days_left measured on
t2 is again d: the suspend/reactivate round trip neither loses nor gains
days, however long the suspension lasted. -/
theorem c6_suspend_reactivate_days_roundtrip (t1 t2 : Int) (rid c : Nat)
    (c1 c2 : String) (s : Store) (r : Record)
    (hwf : StoreWF s)
    (hfind : s.findRec rid c = some r)
    (hact : r.status = SubStatus.ACTIVE)
    (hnoup : s.recs.any (fun u =>
      decide (u.clinic = c ∧ u.status = SubStatus.UPCOMING)) = false)
    (hc1 : isBlankComment c1 = false)
    (hc2 : isBlankComment c2 = false) :
    (suspendOp t1 rid c c1 s).2 = none ∧
    (reactivateOp t2 s.nextId c c2 (suspendOp t1 rid c c1 s).1).2 = none ∧
    ∃ rec : Record,
      (reactivateOp t2 s.nextId c c2 (suspendOp t1 rid c c1 s).1).1.recs =
        (suspendOp t1 rid c c1 s).1.recs ++ [rec] ∧
      rec.status = SubStatus.ACTIVE ∧
      rec.endDate = t2 + (daysLeft t1 r : Int) ∧
      daysLeft t2 rec = daysLeft t1 r := by
  have hcn1 : ¬ (isBlankComment c1 = true) := by simp [hc1]
  have hcn2 : ¬ (isBlankComment c2 = true) := by simp [hc2]
  have hact2 : ¬ r.status ≠ SubStatus.ACTIVE := by simp [hact]
  have hnoup2 : ¬ (s.recs.any (fun u =>
      decide (u.clinic = c ∧ u.status = SubStatus.UPCOMING)) = true) := by
    rw [hnoup]
    exact Bool.false_ne_true
  have hs1 : suspendOp t1 rid c c1 s =
      (s.insert t1
        ⟨some r.group, c, r.duration, r.amountPaid, t1, some r.endDate,
          SubStatus.SUSPENDED, FrozenMark.okDays (daysLeft t1 r)⟩, none) := by
    simp only [suspendOp, hfind, if_neg hcn1, if_neg hact2, if_neg hnoup2]
  have hfind2 : (suspendOp t1 rid c c1 s).1.findRec s.nextId c =
      some (insertedRec s t1
        ⟨some r.group, c, r.duration, r.amountPaid, t1, some r.endDate,
          SubStatus.SUSPENDED, FrozenMark.okDays (daysLeft t1 r)⟩) := by
    rw [hs1]
    unfold Store.findRec
    rw [insert_recs]
    refine find_append_last _ _ _ (fun y hy => ?_) (by simp [insertedRec])
    have : y.id < s.nextId := hwf y hy
    simp only [decide_eq_false_iff_not]
    intro hcon
    omega
  refine ⟨by rw [hs1], ?_, ?_⟩
  · simp only [reactivateOp, hfind2, if_neg hcn2]
    rw [if_neg (by simp [insertedRec])]
  · refine ⟨insertedRec (suspendOp t1 rid c c1 s).1 t2
      ⟨some r.group, c, r.duration, r.amountPaid, t2,
        some (t2 + (daysLeft t1 r : Int)), SubStatus.ACTIVE,
        FrozenMark.absent⟩, ?_, by simp [insertedRec], by simp [insertedRec],
      ?_⟩
    · simp only [reactivateOp, hfind2, if_neg hcn2]
      rw [if_neg (by simp [insertedRec])]
      have hre : reactivationEndDate t2 (insertedRec s t1
          ⟨some r.group, c, r.duration, r.amountPaid, t1, some r.endDate,
            SubStatus.SUSPENDED, FrozenMark.okDays (daysLeft t1 r)⟩) =
          t2 + (daysLeft t1 r : Int) := by
        simp [insertedRec, reactivationEndDate]
      rw [hre]
      exact insert_recs _ _ _
    · simp [daysLeft, insertedRec, hact]
      omega

theorem c6_suspend_reactivate_days_roundtrip_witness :
    (suspendOp 20 0 0 "pause"
      ⟨[⟨0, 0, 0, 30, 100, 0, 30, 0, SubStatus.ACTIVE, FrozenMark.absent⟩],
        1, 1⟩).2 = none ∧
    (reactivateOp 23 1 0 "resume"
      (suspendOp 20 0 0 "pause"
        ⟨[⟨0, 0, 0, 30, 100, 0, 30, 0, SubStatus.ACTIVE, FrozenMark.absent⟩],
          1, 1⟩).1).2 = none ∧
    ∃ rec : Record,
      (reactivateOp 23 1 0 "resume"
        (suspendOp 20 0 0 "pause"
          ⟨[⟨0, 0, 0, 30, 100, 0, 30, 0, SubStatus.ACTIVE, FrozenMark.absent⟩],
            1, 1⟩).1).1.recs =
        (suspendOp 20 0 0 "pause"
          ⟨[⟨0, 0, 0, 30, 100, 0, 30, 0, SubStatus.ACTIVE, FrozenMark.absent⟩],
            1, 1⟩).1.recs ++ [rec] ∧
      rec.status = SubStatus.ACTIVE ∧
      rec.endDate = 23 +
        (daysLeft 20
          ⟨0, 0, 0, 30, 100, 0, 30, 0, SubStatus.ACTIVE, FrozenMark.absent⟩ :
            Int) ∧
      daysLeft 23 rec = daysLeft 20
        ⟨0, 0, 0, 30, 100, 0, 30, 0, SubStatus.ACTIVE, FrozenMark.absent⟩ :=
  c6_suspend_reactivate_days_roundtrip 20 23 0 0 "pause" "resume"
    ⟨[⟨0, 0, 0, 30, 100, 0, 30, 0, SubStatus.ACTIVE, FrozenMark.absent⟩], 1, 1⟩
    ⟨0, 0, 0, 30, 100, 0, 30, 0, SubStatus.ACTIVE, FrozenMark.absent⟩
    (by intro x hx; fin_cases hx; decide) (by decide) (by decide)
    (by decide) (by decide) (by decide)

/-- The close-current-ACTIVE loop of the activation phase only appends ENDED
rows. -/
theorem endfold_recs (today : Int) :
    ∀ (L : List Record) (s : Store),
      ∃ tail, (L.foldl (endActiveFor today) s).recs = s.recs ++ tail ∧
        ∀ x ∈ tail, x.status = SubStatus.ENDED := by
  intro L
  induction L with
  | nil => intro s; exact ⟨[], by simp, by simp⟩
  | cons a as ih =>
    intro s
    rw [List.foldl_cons]
    by_cases hg : groupHasEnded s.recs a.group = true
    · have he : endActiveFor today s a = s := by
        simp only [endActiveFor, if_pos hg]
      rw [he]
      exact ih s
    · have he : endActiveFor today s a = s.insert today (endedCopy a) := by
        simp only [endActiveFor, if_neg hg]
      rw [he]
      rcases ih (s.insert today (endedCopy a)) with ⟨tail, h1, h2⟩
      refine ⟨insertedRec s today (endedCopy a) :: tail, ?_, ?_⟩
      · rw [h1, insert_recs]
        simp
      · intro x hx
        rcases List.mem_cons.mp hx with h | h
        · subst h
          simp [insertedRec, endedCopy]
        · exact h2 x h

/-- Processing one due UPCOMING row removes it from the due set and adds no
new due rows: the closing inserts are ENDED and the in-place flip makes the
processed row ACTIVE. -/
theorem activateOne_no_due (today : Int) (s : Store) (u : Record)
    (L : List Record)
    (hsub : ∀ r ∈ s.recs, isDueUpcoming today r = true → r ∈ u :: L) :
    ∀ r ∈ (activateOne today s u).recs, isDueUpcoming today r = true →
      r ∈ L := by
  intro r hr hdue
  unfold activateOne Store.setStatus at hr
  simp only [List.mem_map] at hr
  rcases hr with ⟨r0, hr0, hmap⟩
  rcases endfold_recs today
      (s.recs.filter (fun a =>
        decide (a.clinic = u.clinic ∧ a.status = SubStatus.ACTIVE))) s with
    ⟨tail, h1, h2⟩
  rw [h1] at hr0
  by_cases hid : r0.id = u.id
  · rw [if_pos hid] at hmap
    subst hmap
    simp [isDueUpcoming] at hdue
  · rw [if_neg hid] at hmap
    subst hmap
    rcases List.mem_append.mp hr0 with h | h
    · rcases List.mem_cons.mp (hsub r0 h hdue) with h3 | h3
      · subst h3
        exact absurd rfl hid
      · exact h3
    · have := h2 r0 h
      simp [isDueUpcoming, this] at hdue

/-- After the activation fold has processed every due UPCOMING row, no due
UPCOMING row remains. -/
theorem activate_fold_no_due (today : Int) :
    ∀ (L : List Record) (s : Store),
      (∀ r ∈ s.recs, isDueUpcoming today r = true → r ∈ L) →
      ∀ r ∈ (L.foldl (activateOne today) s).recs,
        isDueUpcoming today r = false := by
  intro L
  induction L with
  | nil =>
    intro s hsub r hr
    cases hdue : isDueUpcoming today r with
    | false => rfl
    | true => exact absurd (hsub r hr hdue) (List.not_mem_nil r)
  | cons u us ih =>
    intro s hsub
    rw [List.foldl_cons]
    exact ih (activateOne today s u) (activateOne_no_due today s u us hsub)

/-- After the activation phase no due UPCOMING row remains in the store. -/
theorem activateUpcoming_no_due (today : Int) (s : Store) :
    ∀ r ∈ (activateUpcoming today s).1.recs,
      isDueUpcoming today r = false := by
  unfold activateUpcoming
  exact activate_fold_no_due today (s.recs.filter (isDueUpcoming today)) s
    (fun r hr hdue => List.mem_filter.mpr ⟨hr, hdue⟩)

/-- The expiry fold only appends ENDED rows. -/
theorem expirefold_recs (today : Int) :
    ∀ (L : List Record) (p : Store × Nat),
      ∃ tail, ((L.foldl (expireStep today) p).1).recs = p.1.recs ++ tail ∧
        ∀ x ∈ tail, x.status = SubStatus.ENDED := by
  intro L
  induction L with
  | nil => intro p; exact ⟨[], by simp, by simp⟩
  | cons x xs ih =>
    intro p
    rw [List.foldl_cons]
    by_cases hg : groupHasEnded p.1.recs x.group = true
    · have he : expireStep today p x = p := by
        simp only [expireStep, if_pos hg]
      rw [he]
      exact ih p
    · have he : expireStep today p x =
          (p.1.insert today (endedCopy x), p.2 + 1) := by
        simp only [expireStep, if_neg hg]
      rw [he]
      rcases ih (p.1.insert today (endedCopy x), p.2 + 1) with ⟨tail, h1, h2⟩
      refine ⟨insertedRec p.1 today (endedCopy x) :: tail, ?_, ?_⟩
      · rw [h1]
        simp [insert_recs]
      · intro y hy
        rcases List.mem_cons.mp hy with h | h
        · subst h
          simp [insertedRec, endedCopy]
        · exact h2 y h

/-- groupHasEnded is monotone under appending rows. -/
theorem hasEnded_append (l1 l2 : List Record) (g : Nat)
    (h : groupHasEnded l1 g = true) : groupHasEnded (l1 ++ l2) g = true := by
  simp only [groupHasEnded, List.any_append, Bool.or_eq_true]
  exact Or.inl h

/-- groupHasEnded is preserved by the expiry fold. -/
theorem expirefold_hasEnded_mono (today : Int) (L : List Record)
    (p : Store × Nat) (g : Nat) (h : groupHasEnded p.1.recs g = true) :
    groupHasEnded ((L.foldl (expireStep today) p).1).recs g = true := by
  rcases expirefold_recs today L p with ⟨tail, h1, _⟩
  rw [h1]
  exact hasEnded_append _ _ _ h

/-- After the expiry fold, the group of every processed row has an ENDED row. -/
theorem expirefold_covers (today : Int) :
    ∀ (L : List Record) (p : Store × Nat),
      ∀ r ∈ L,
        groupHasEnded ((L.foldl (expireStep today) p).1).recs r.group =
          true := by
  intro L
  induction L with
  | nil => intro p r hr; cases hr
  | cons x xs ih =>
    intro p r hr
    rw [List.foldl_cons]
    rcases List.mem_cons.mp hr with h | h
    · subst h
      apply expirefold_hasEnded_mono
      by_cases hg : groupHasEnded p.1.recs r.group = true
      · have he : expireStep today p r = p := by
          simp only [expireStep, if_pos hg]
        rw [he]
        exact hg
      · have he : expireStep today p r =
            (p.1.insert today (endedCopy r), p.2 + 1) := by
          simp only [expireStep, if_neg hg]
        rw [he]
        show groupHasEnded (p.1.insert today (endedCopy r)).recs r.group = true
        rw [insert_recs]
        simp [groupHasEnded, List.any_append, insertedRec, endedCopy]
    · exact ih (expireStep today p x) r h

/-- The expiry fold is the identity when the group of every listed row is already
closed. -/
theorem expirefold_skip (today : Int) :
    ∀ (L : List Record) (p : Store × Nat),
      (∀ r ∈ L, groupHasEnded p.1.recs r.group = true) →
      L.foldl (expireStep today) p = p := by
  intro L
  induction L with
  | nil => intro p _; rfl
  | cons x xs ih =>
    intro p h
    rw [List.foldl_cons]
    have hx : expireStep today p x = p := by
      simp only [expireStep, if_pos (h x (List.mem_cons_self x xs))]
    rw [hx]
    exact ih p (fun r hr => h r (List.mem_cons_of_mem x hr))

/-- Appending ENDED rows does not change the set of expirable rows. -/
theorem filter_expirable_append (today : Int) (l t : List Record)
    (ht : ∀ x ∈ t, x.status = SubStatus.ENDED) :
    (l ++ t).filter (isExpirable today) = l.filter (isExpirable today) := by
  rw [List.filter_append]
  have hnil : t.filter (isExpirable today) = [] := by
    apply List.filter_eq_nil_iff.mpr
    intro a ha
    simp [isExpirable, ht a ha]
  rw [hnil, List.append_nil]

/-- ENDED-per-group count distributes over append. -/
theorem countEnded_append (g : Nat) (l1 l2 : List Record) :
    countEndedGroup g (l1 ++ l2) =
      countEndedGroup g l1 + countEndedGroup g l2 := by
  simp [countEndedGroup, List.filter_append]

/-- A group has an ENDED row exactly when its ENDED count is positive. -/
theorem hasEnded_iff_count (l : List Record) (g : Nat) :
    groupHasEnded l g = true ↔ 0 < countEndedGroup g l := by
  constructor
  · intro h
    rcases List.any_eq_true.mp h with ⟨a, ha, hpa⟩
    have hmem : a ∈ l.filter (fun e =>
        decide (e.group = g ∧ e.status = SubStatus.ENDED)) :=
      List.mem_filter.mpr ⟨ha, hpa⟩
    exact List.length_pos.mpr (List.ne_nil_of_mem hmem)
  · intro h
    obtain ⟨a, ha⟩ := List.exists_mem_of_length_pos h
    have h2 := List.mem_filter.mp ha
    exact List.any_eq_true.mpr ⟨a, h2.1, h2.2⟩

/-- The expiry fold never pushes the ENDED count of a group above one: an ENDED
copy is inserted only when the group has none. -/
theorem expirefold_count_le_one (today : Int) :
    ∀ (L : List Record) (p : Store × Nat) (g : Nat),
      countEndedGroup g p.1.recs ≤ 1 →
      countEndedGroup g ((L.foldl (expireStep today) p).1).recs ≤ 1 := by
  intro L
  induction L with
  | nil => intro p g h; exact h
  | cons x xs ih =>
    intro p g h
    rw [List.foldl_cons]
    apply ih
    by_cases hg : groupHasEnded p.1.recs x.group = true
    · have he : expireStep today p x = p := by
        simp only [expireStep, if_pos hg]
      rw [he]
      exact h
    · have he : expireStep today p x =
          (p.1.insert today (endedCopy x), p.2 + 1) := by
        simp only [expireStep, if_neg hg]
      rw [he]
      show countEndedGroup g (p.1.insert today (endedCopy x)).recs ≤ 1
      rw [insert_recs, countEnded_append]
      by_cases hgx : x.group = g
      · subst hgx
        have hnot : ¬ 0 < countEndedGroup x.group p.1.recs := fun hc =>
          hg ((hasEnded_iff_count p.1.recs x.group).mpr hc)
        have hsingle :
            countEndedGroup x.group
              [insertedRec p.1 today (endedCopy x)] = 1 := by
          simp [countEndedGroup, insertedRec, endedCopy]
        omega
      · have hsingle :
            countEndedGroup g [insertedRec p.1 today (endedCopy x)] = 0 := by
          simp [countEndedGroup, insertedRec, endedCopy, hgx]
        omega

/-- The expiry phase only appends ENDED rows to the store. -/
theorem expireActive_recs (today : Int) (s0 : Store) :
    ∃ tail, (expireActive today s0).1.recs = s0.recs ++ tail ∧
      ∀ x ∈ tail, x.status = SubStatus.ENDED :=
  expirefold_recs today (s0.recs.filter (isExpirable today)) (s0, 0)

/-- Running the expiry phase a second time changes nothing and expires zero
subscriptions: the first run closed every expirable group. -/
theorem expireActive_idem (today : Int) (s0 : Store) :
    expireActive today (expireActive today s0).1 =
      ((expireActive today s0).1, 0) := by
  rcases expireActive_recs today s0 with ⟨tail, h1, h2⟩
  have hfil : (expireActive today s0).1.recs.filter (isExpirable today) =
      s0.recs.filter (isExpirable today) := by
    rw [h1]
    exact filter_expirable_append today _ _ h2
  show ((expireActive today s0).1.recs.filter (isExpirable today)).foldl
      (expireStep today) ((expireActive today s0).1, 0) =
    ((expireActive today s0).1, 0)
  rw [hfil]
  apply expirefold_skip
  intro r hr
  exact expirefold_covers today _ (s0, 0) r hr

/-- The activation phase is a no-op on a store with no due UPCOMING row. -/
theorem activateUpcoming_noop (today : Int) (s0 : Store)
    (h : ∀ r ∈ s0.recs, isDueUpcoming today r = false) :
    activateUpcoming today s0 = (s0, 0) := by
  have hfil : s0.recs.filter (isDueUpcoming today) = [] := by
    apply List.filter_eq_nil_iff.mpr
    intro a ha
    simp [h a ha]
  show ((s0.recs.filter (isDueUpcoming today)).foldl (activateOne today) s0,
      (s0.recs.filter (isDueUpcoming today)).length) = (s0, 0)
  rw [hfil]
  rfl

/-- C7: the daily reconciliation is idempotent: run twice with the same today
on the same store, the second run returns the same store and reports zero
activated and zero expired subscriptions; moreover a due ACTIVE record whose
group has no ENDED row yet gets exactly one ENDED row for its group from the
expiry phase, even when the phase is invoked twice. -/
theorem c7_reconciliation_idempotent (today : Int) (s : Store) :
    (runDaily today (runDaily today s).1).1 = (runDaily today s).1 ∧
    (runDaily today (runDaily today s).1).2 = (0, 0) ∧
    (∀ r ∈ s.recs, isExpirable today r = true →
      countEndedGroup r.group s.recs = 0 →
      countEndedGroup r.group (expireActive today s).1.recs = 1 ∧
      expireActive today (expireActive today s).1 =
        ((expireActive today s).1, 0)) := by
  have hdue2 : ∀ r ∈ (runDaily today s).1.recs,
      isDueUpcoming today r = false := by
    rcases expireActive_recs today (activateUpcoming today s).1 with
      ⟨tail, h1, h2⟩
    intro r hr
    have hr2 : r ∈ (activateUpcoming today s).1.recs ++ tail := by
      rw [← h1]
      exact hr
    rcases List.mem_append.mp hr2 with h | h
    · exact activateUpcoming_no_due today s r h
    · simp [isDueUpcoming, h2 r h]
  have hact2 : activateUpcoming today (runDaily today s).1 =
      ((runDaily today s).1, 0) :=
    activateUpcoming_noop today _ hdue2
  have hexp2 : expireActive today (runDaily today s).1 =
      ((runDaily today s).1, 0) :=
    expireActive_idem today (activateUpcoming today s).1
  have hmain : runDaily today (runDaily today s).1 =
      ((runDaily today s).1, 0, 0) := by
    show ((expireActive today
        (activateUpcoming today (runDaily today s).1).1).1,
      (activateUpcoming today (runDaily today s).1).2,
      (expireActive today
        (activateUpcoming today (runDaily today s).1).1).2) =
      ((runDaily today s).1, 0, 0)
    rw [hact2]
    simp only []
    rw [hexp2]
  refine ⟨by rw [hmain], by rw [hmain], ?_⟩
  intro r hr hexp h0
  constructor
  · have hmem : r ∈ s.recs.filter (isExpirable today) :=
      List.mem_filter.mpr ⟨hr, hexp⟩
    have hcov : groupHasEnded (expireActive today s).1.recs r.group = true :=
      expirefold_covers today _ (s, 0) r hmem
    have hge : 0 < countEndedGroup r.group (expireActive today s).1.recs :=
      (hasEnded_iff_count _ _).mp hcov
    have hle : countEndedGroup r.group (expireActive today s).1.recs ≤ 1 :=
      expirefold_count_le_one today _ (s, 0) r.group (by simp [h0])
    omega
  · exact expireActive_idem today s

theorem c7_reconciliation_idempotent_witness :
    countEndedGroup 0
      (expireActive 7
        ⟨[⟨0, 0, 0, 30, 100, 0, 5, 0, SubStatus.ACTIVE,
          FrozenMark.absent⟩], 1, 1⟩).1.recs = 1 ∧
    expireActive 7
      (expireActive 7
        ⟨[⟨0, 0, 0, 30, 100, 0, 5, 0, SubStatus.ACTIVE,
          FrozenMark.absent⟩], 1, 1⟩).1 =
      ((expireActive 7
        ⟨[⟨0, 0, 0, 30, 100, 0, 5, 0, SubStatus.ACTIVE,
          FrozenMark.absent⟩], 1, 1⟩).1, 0) :=
  (c7_reconciliation_idempotent 7
    ⟨[⟨0, 0, 0, 30, 100, 0, 5, 0, SubStatus.ACTIVE,
      FrozenMark.absent⟩], 1, 1⟩).2.2
    ⟨0, 0, 0, 30, 100, 0, 5, 0, SubStatus.ACTIVE, FrozenMark.absent⟩
    (by decide) (by decide) (by decide)
